import Mathlib

/-!
# Inspection workspace controller (`src/static/js/app.js`)

A shallow embedding of the browser script that drives the part-inspection page: the
catalog loader `loadKB`, image acquisition `previewFile`, the overlay canvas, the submit
handler of `inspectBtn`, the result renderer `renderResult`, the history ledger
`addHistory` and its CSV export `exportCSV`.

JavaScript strings are lists of characters, JavaScript values that come out of
`JSON.parse` are the inductive type `JsVal`, a thrown exception is `none` (for
expressions) or `Except.error` carrying the state reached at the throw (for statements
that have already written to the session state).  Converting an object to a string or a
number throws a TypeError when the object has an own property `toString` (a JSON value is
never callable); `convertible` says when it does not.  The conversions made while a
result is rendered and while the catalog is loaded are guarded by it; `exportCSV` converts
only values of ledger records, which were converted when the record was made.  The primitives of the browser that the
script calls but does not define (number formatting, `JSON.stringify`) are the fields of
`Host`; every theorem holds for every host.
-/

namespace Inspect

/-- A JavaScript string. -/
abbrev Str := List Char

/-- The double quote character. -/
def dquote : Char := Char.ofNat 34

/-- The apostrophe character. -/
def apos : Char := Char.ofNat 39

/-! ## JavaScript values -/

/-- Values the script handles: what `JSON.parse` returns, plus `undefined` for a property
that is absent.  A number is the exact value of the finite double. -/
inductive JsVal where
  | undefined
  | null
  | bool (b : Bool)
  | num (q : ℚ)
  | str (s : Str)
  | arr (xs : List JsVal)
  | obj (kvs : List (Str × JsVal))

/-- Browser primitives the script calls and does not define. -/
structure Host where
  /-- Number to string conversion, `String(x)` on a number. -/
  numberToString : ℚ → Str
  /-- String to number conversion; `none` is NaN. -/
  stringToNumber : Str → Option ℚ
  /-- The text of `(x*100).toFixed(1)` for the number `x`; `none` is NaN. -/
  percentFixed1 : Option ℚ → Str
  /-- The text of `JSON.stringify(j)`. -/
  jsonStringify : JsVal → Str
  /-- The text of `JSON.stringify(j, null, 2)`. -/
  jsonStringifyPretty : JsVal → Str

/-- `Array.prototype.join` on strings: the pieces with `sep` between neighbours. -/
def joinWith (sep : Str) : List Str → Str
  | [] => []
  | [x] => x
  | x :: y :: r => x ++ sep ++ joinWith sep (y :: r)

/-- Whether an object has an own property `k`. -/
def hasKey (k : Str) : List (Str × JsVal) → Bool
  | [] => false
  | (k', _) :: r => decide (k' = k) || hasKey k r

mutual
/-- Whether converting a value to a primitive (`ToPrimitive`, on which `ToString` and
`ToNumber` rest) returns: an object parsed from JSON inherits a callable `toString` unless
it has an own property of that name, in which case the conversion throws a TypeError; an
array is converted by `join`, which converts its elements. -/
def convertible : JsVal → Bool
  | .obj kvs => !hasKey "toString".toList kvs
  | .arr xs => allConvertible xs
  | _ => true
/-- Whether every element of an array is `convertible`. -/
def allConvertible : List JsVal → Bool
  | [] => true
  | x :: r => convertible x && allConvertible r
end

mutual
/-- The text JavaScript `ToString` gives for a `convertible` value (on any other value
`ToString` throws, see `toStringOf`). -/
def toStr (E : Host) : JsVal → Str
  | .undefined => "undefined".toList
  | .null => "null".toList
  | .bool true => "true".toList
  | .bool false => "false".toList
  | .num q => E.numberToString q
  | .str s => s
  | .arr xs => joinWith ",".toList (elemStrs E xs)
  | .obj _ => "[object Object]".toList
/-- The texts `Array.prototype.join` puts together: empty for `null` and `undefined`. -/
def elemStrs (E : Host) : List JsVal → List Str
  | [] => []
  | .undefined :: r => [] :: elemStrs E r
  | .null :: r => [] :: elemStrs E r
  | x :: r => toStr E x :: elemStrs E r
end

/-- JavaScript `ToString`, as used by template literals, by `+` with a string and by the
setter of `opt.value`; `none` is the TypeError. -/
def toStringOf (E : Host) (v : JsVal) : Option Str :=
  if convertible v then some (toStr E v) else none

/-- JavaScript `ToNumber`, as used by `>=` and `*`; the outer `none` is the TypeError, the
inner `none` is NaN. -/
def toNumber (E : Host) : JsVal → Option (Option ℚ)
  | .undefined => some none
  | .null => some (some 0)
  | .bool true => some (some 1)
  | .bool false => some (some 0)
  | .num q => some (some q)
  | .str s => some (E.stringToNumber s)
  | .arr xs => if allConvertible xs then some (E.stringToNumber (toStr E (.arr xs))) else none
  | .obj kvs => if hasKey "toString".toList kvs then none else some none

/-- JavaScript truthiness. -/
def truthy : JsVal → Bool
  | .undefined => false
  | .null => false
  | .bool b => b
  | .num q => decide (q ≠ 0)
  | .str s => !s.isEmpty
  | _ => true

/-- Whether a value is `null` or `undefined`. -/
def nullish : JsVal → Bool
  | .undefined => true
  | .null => true
  | _ => false

/-- The operator `a || b`. -/
def orElse (a b : JsVal) : JsVal := if truthy a then a else b

/-- The operator `a || b` on two strings. -/
def strOr (a b : Str) : Str := if a.isEmpty then b else a

/-- The operator `a ?? b`. -/
def coalesce (a b : JsVal) : JsVal := if nullish a then b else a

/-- Own property of an object by key. -/
def lookup (k : Str) : List (Str × JsVal) → JsVal
  | [] => .undefined
  | (k', v) :: r => if k' = k then v else lookup k r

/-- Number of UTF-16 code units of a string. -/
def utf16Length : Str → Nat
  | [] => 0
  | c :: cs => (if c.toNat < 65536 then 1 else 2) + utf16Length cs

/-- Property read `v.k` for the data properties the script reads (among them only
`length` exists on strings and arrays).  Reading from `null` or `undefined` throws. -/
def getProp (v : JsVal) (k : Str) : Option JsVal :=
  match v with
  | .undefined => none
  | .null => none
  | .obj kvs => some (lookup k kvs)
  | .arr xs => some (if k = "length".toList then .num xs.length else .undefined)
  | .str s => some (if k = "length".toList then .num (utf16Length s) else .undefined)
  | _ => some .undefined

/-- Optional chaining `v?.k` on a value already computed. -/
def getPropOpt (v : JsVal) (k : Str) : JsVal :=
  if nullish v then .undefined else (getProp v k).getD .undefined

/-- The value of `v >= c` against a number literal, when the conversion of `v` does not
throw. -/
def geNum (E : Host) (v : JsVal) (c : ℚ) : Bool :=
  match toNumber E v with
  | some (some q) => decide (c ≤ q)
  | _ => false

/-! ## Result interpreter -/

/-- The severity class chosen in `verdictBadge`. -/
def verdictClass (verdict : JsVal) : Str :=
  match verdict with
  | .str s =>
    if s = "Genuine".toList then "ok".toList
    else if s = "Suspect".toList then "warn".toList
    else "err".toList
  | _ => "err".toList

/-- Markup of `verdictBadge`; `none` when interpolating `verdict` throws. -/
def verdictBadge (E : Host) (verdict : JsVal) : Option Str := do
  let text ← toStringOf E verdict
  some ("<span class=\"badge ".toList ++ verdictClass verdict ++ "\">".toList
    ++ text ++ "</span>".toList)

/-- The severity class chosen in `confBadge`, when the comparison does not throw. -/
def confClass (E : Host) (v : JsVal) : Str :=
  if geNum E v (3/4) then "ok".toList
  else if geNum E v (1/2) then "warn".toList
  else "err".toList

/-- Markup of `confBadge`; `none` when converting `v` to a number throws. -/
def confBadge (E : Host) (label : Str) (v : JsVal) : Option Str := do
  let n ← toNumber E v
  some ("<span class=\"badge ".toList ++ confClass E v ++ "\">".toList ++ label
    ++ ": ".toList ++ E.percentFixed1 n ++ "%</span>".toList)

/-- Markup of `reasonsChips`; `none` when `reasons.map` is not a function or interpolating
a reason throws. -/
def reasonsChips (E : Host) (reasons : JsVal) : Option Str :=
  if !truthy reasons then some "<span class=\"badge ok\">No rule failures</span>".toList
  else
    match getProp reasons "length".toList with
    | none => none
    | some len =>
      if !truthy len then some "<span class=\"badge ok\">No rule failures</span>".toList
      else
        match reasons with
        | .arr xs =>
          if allConvertible xs then
            some (joinWith " ".toList (xs.map fun r =>
              "<span class=\"badge err\">".toList ++ toStr E r ++ "</span>".toList))
          else none
        | _ => none

/-- Replacement of one character in `escapeHtml`. -/
def escapeChar (c : Char) : Str :=
  if c = Char.ofNat 38 then "&amp;".toList
  else if c = Char.ofNat 60 then "&lt;".toList
  else if c = Char.ofNat 62 then "&gt;".toList
  else if c = apos then "&#39;".toList
  else if c = dquote then "&quot;".toList
  else [c]

/-- The function `escapeHtml`. -/
def escapeHtml : Str → Str
  | [] => []
  | c :: cs => escapeChar c ++ escapeHtml cs

/-- Placeholder markup for an absent value. -/
def mutedDash : Str := "<span class=\x27muted\x27>—</span>".toList

/-- `x.join(sep)`: defined on arrays only, and throwing when an element cannot be
converted to a string. -/
def joinMethod (E : Host) (x : JsVal) (sep : Str) : Option Str :=
  match x with
  | .arr xs => if allConvertible xs then some (joinWith sep (elemStrs E xs)) else none
  | _ => none

/-- The text `renderResult` puts in the cell after "Extracted Text":
`text || placeholder`, interpolated as it is; `none` when the interpolation throws. -/
def extractedCell (E : Host) (text : JsVal) : Option Str :=
  if truthy text then toStringOf E text else some mutedDash

/-- The template literal of `renderResult`, the texts it interpolates given: the three
badges, the extracted-text cell, the reason chips and the joined bounding box. -/
def resultTemplate (E : Host) (j : JsVal) (verdict final ocr extracted chips box : Str) :
    Str :=
  "\n    <div style=\"margin-bottom:8px\">".toList ++ verdict ++ " ".toList
    ++ final ++ " ".toList ++ ocr
    ++ "</div>\n    <div class=\"kv\">\n      <div>Extracted Text</div><div>".toList
    ++ extracted
    ++ "</div>\n      <div>Reasons</div><div>".toList ++ chips
    ++ "</div>\n      <div>BBox</div><div>".toList ++ (if box.isEmpty then mutedDash else box)
    ++ "</div>\n      <div>Raw JSON</div><div><code id=\"rawJson\" style=\"font-size:12px\">".toList
    ++ escapeHtml (E.jsonStringify j) ++ "</code></div>\n    </div>\n  ".toList

/-- The markup `renderResult` assigns to the result panel; `none` when building it throws. -/
def resultMarkup (E : Host) (j : JsVal) : Option Str := do
  let v := orElse (← getProp j "verdict".toList) (.str "Unknown".toList)
  let ocr := coalesce (getPropOpt (← getProp j "scores".toList) "ocr_conf".toList) (.num 0)
  let f := coalesce (getPropOpt (← getProp j "scores".toList) "final_conf".toList) (.num 0)
  let text := orElse (getPropOpt (← getProp j "extracted".toList) "text".toList) (.str [])
  let verdict ← verdictBadge E v
  let final ← confBadge E "Final".toList f
  let ocrBadge ← confBadge E "OCR".toList ocr
  let extracted ← extractedCell E text
  let chips ← reasonsChips E (orElse (← getProp j "reason_codes".toList) (.arr []))
  let box ← joinMethod E (orElse (← getProp j "bbox".toList) (.arr [])) ", ".toList
  some (resultTemplate E j verdict final ocrBadge extracted chips box)

/-! ## Session state and the page -/

/-- An image file handed over by the operator. -/
structure File where
  id : Nat
deriving DecidableEq

/-- Loading state of the preview image element. -/
inductive ImgStatus where
  | noSource
  | loading
  | decoded
  | broken
deriving DecidableEq

/-- The preview image element `img`. -/
structure Img where
  status : ImgStatus
  display : Str

/-- The property `img.complete`: false only while a source is being fetched and decoded. -/
def Img.complete (i : Img) : Bool := decide (i.status ≠ .loading)

/-- A rectangle put on the overlay canvas. -/
inductive DrawOp where
  | strokeRect (x y w h : JsVal)
  | fillRect (x y w h : JsVal)

/-- The overlay canvas `overlay` with its 2d context. -/
structure Overlay where
  width : Nat
  height : Nat
  styleWidth : Str
  styleHeight : Str
  display : Str
  lineWidth : Nat
  strokeStyle : Str
  fillStyle : Str
  ops : List DrawOp

/-- An option element of the part selector. -/
structure SelectOption where
  value : Str
  textContent : Str
deriving DecidableEq

/-- The part selector `partSel`, a drop-down list. -/
structure PartSel where
  options : List SelectOption
  selectedIndex : Option Nat
deriving DecidableEq

/-- The property `partSel.value`: the value of the selected option, empty when none is. -/
def PartSel.value (p : PartSel) : Str :=
  match p.selectedIndex with
  | some i => ((p.options.get? i).map SelectOption.value).getD []
  | none => []

/-- The selector after `partSel.innerHTML = ""`. -/
def PartSel.cleared : PartSel := { options := [], selectedIndex := none }

/-- The selector after `partSel.appendChild(opt)`: a drop-down with nothing selected
selects its first option. -/
def PartSel.appendChild (p : PartSel) (opt : SelectOption) : PartSel :=
  { options := p.options ++ [opt]
    selectedIndex := match p.selectedIndex with
      | some i => some i
      | none => some 0 }

/-- The multipart form sent to `/inspect`. -/
structure FormData where
  part_id : Str
  file : File
  psm : Str
  adaptive : Str
  whitelist : Str
deriving DecidableEq

/-- One record of the `history` array. -/
structure HistoryRecord where
  ts : Str
  part : Str
  verdict : JsVal
  conf : JsVal
  reasons : Str
  json : JsVal

/-- A file offered for download. -/
structure Download where
  name : Str
  mime : Str
  text : Str
deriving DecidableEq

/-- The session: the three module variables of the script, the page elements it
writes, the form controls it reads, and what it has sent out (alerts, requests,
downloads, clipboard). -/
structure State where
  lastJson : JsVal
  currentBlob : Option File
  history : List HistoryRecord
  partSel : PartSel
  img : Img
  overlay : Overlay
  resultBox : Str
  historyTable : List Str
  psm : Str
  adaptive : Bool
  whitelist : Str
  alerts : List Str
  requests : List FormData
  inflight : Nat
  downloads : List Download
  clipboard : Option Str

/-- What a `fetch` followed by `res.json()` gives: a rejected fetch, a body that is not
JSON, or the parsed body; the HTTP status comes with every response received. -/
inductive Response where
  | networkError
  | invalidBody (status : Nat)
  | json (status : Nat) (body : JsVal)

/-! ## Overlay -/

/-- The function `clearOverlay`: the whole buffer is cleared. -/
def clearOverlay (s : State) : State :=
  { s with overlay := { s.overlay with ops := [] } }

/-- Array destructuring `const [x,y,w,h] = bbox`; `none` when `bbox` is not iterable. -/
def destructure4 (bbox : JsVal) : Option (JsVal × JsVal × JsVal × JsVal) :=
  match bbox with
  | .arr xs => some (xs.getD 0 .undefined, xs.getD 1 .undefined, xs.getD 2 .undefined,
      xs.getD 3 .undefined)
  | .str cs =>
    let xs : List JsVal := cs.map fun c => .str [c]
    some (xs.getD 0 .undefined, xs.getD 1 .undefined, xs.getD 2 .undefined,
      xs.getD 3 .undefined)
  | _ => none

/-- The function `drawBBox`.  `Except.error` is a thrown exception and carries the state
reached: the destructuring throws before anything is written, `strokeRect` throws, after
the overlay has been cleared, when a coordinate cannot be converted to a number. -/
def drawBBox (s : State) (bbox : JsVal) : Except State State :=
  if !truthy bbox || !s.img.complete then .ok s
  else
    match destructure4 bbox with
    | none => .error s
    | some (x, y, w, h) =>
      let s1 := clearOverlay s
      let s2 := { s1 with overlay := { s1.overlay with
        lineWidth := max 2 ((s1.overlay.width + 200) / 400)
        strokeStyle := "#3b82f6".toList
        fillStyle := "rgba(59,130,246,0.15)".toList } }
      if convertible x && convertible y && convertible w && convertible h then
        .ok { s2 with overlay := { s2.overlay with
          ops := s2.overlay.ops ++ [.strokeRect x y w h, .fillRect x y w h] } }
      else .error s2

/-! ## History ledger -/

/-- The function `addHistory`, with the clock reading `ts`; `none` when it throws, which
it can only do before it has written anything. -/
def addHistory (E : Host) (s : State) (j : JsVal) (ts : Str) : Option State := do
  let verdict := orElse (← getProp j "verdict".toList) (.str "Unknown".toList)
  let conf := coalesce (getPropOpt (← getProp j "scores".toList) "final_conf".toList) (.num 0)
  let reasons ← joinMethod E (orElse (← getProp j "reason_codes".toList) (.arr [])) " ".toList
  let part := s.partSel.value
  let verdictText ← toStringOf E verdict
  let percent ← toNumber E conf
  let row := "<td>".toList ++ ts ++ "</td><td>".toList ++ part ++ "</td><td>".toList
    ++ verdictText ++ "</td><td>".toList ++ E.percentFixed1 percent
    ++ "%</td><td>".toList ++ reasons ++ "</td>".toList
  some { s with
    historyTable := row :: s.historyTable
    history := { ts := ts, part := part, verdict := verdict, conf := conf, reasons := reasons,
                 json := j } :: s.history }

/-- The function `renderResult`, with the clock reading `ts`.  `Except.error` is a thrown
exception and carries the state the function had reached. -/
def renderResult (E : Host) (s : State) (j : JsVal) (ts : Str) : Except State State :=
  let s1 := { s with lastJson := j }
  match resultMarkup E j with
  | none => .error s1
  | some markup =>
    let s2 := { s1 with resultBox := markup }
    match getProp j "bbox".toList with
    | none => .error s2
    | some bbox =>
      match (if truthy bbox then drawBBox s2 bbox else .ok s2) with
      | .error s3 => .error s3
      | .ok s3 =>
        match addHistory E s3 j ts with
        | none => .error s3
        | some s4 => .ok s4

/-! ## CSV export and clipboard -/

/-- The replacement `s.replace(/"/g, '""')`. -/
def doubleQuotes : Str → Str
  | [] => []
  | c :: cs => if c = dquote then dquote :: dquote :: doubleQuotes cs else c :: doubleQuotes cs

/-- One CSV field: the text of `x` between quotes, its quotes doubled.  The values
`exportCSV` converts are strings and the verdict and confidence of ledger records, which
`addHistory` has converted before (`session_ledger_convertible`). -/
def csvField (E : Host) (x : JsVal) : Str :=
  dquote :: (doubleQuotes (toStr E x) ++ [dquote])

/-- The array `rows` of `exportCSV`. -/
def csvRows (history : List HistoryRecord) : List (List JsVal) :=
  [.str "time".toList, .str "part".toList, .str "verdict".toList, .str "final_conf".toList,
    .str "reasons".toList]
  :: history.map fun h => [.str h.ts, .str h.part, h.verdict, h.conf, .str h.reasons]

/-- The text `csv` of `exportCSV`. -/
def csvText (E : Host) (history : List HistoryRecord) : Str :=
  joinWith "\n".toList ((csvRows history).map fun r => joinWith ",".toList (r.map (csvField E)))

/-- The function `exportCSV`. -/
def exportCSV (E : Host) (s : State) : State :=
  if s.history.length = 0 then s
  else { s with downloads := s.downloads ++
    [{ name := "inspection_history.csv".toList, mime := "text/csv".toList,
       text := csvText E s.history }] }

/-- The function `copyLastJson`. -/
def copyLastJson (E : Host) (s : State) : State :=
  if !truthy s.lastJson then s
  else { s with clipboard := some (E.jsonStringifyPretty s.lastJson) }

/-! ## Image acquisition -/

/-- The function `previewFile`; `none` is an absent file (`files?.[0]` undefined). -/
def previewFile (s : State) (f : Option File) : State :=
  match f with
  | none => s
  | some file =>
    { s with currentBlob := some file, img := { s.img with status := .loading } }

/-- The `img.onload` callback installed by `previewFile`, run when the image has been
decoded with intrinsic size `nw` x `nh` and is laid out at `cw` x `ch`.  Sizing a canvas
resets its drawing state. -/
def imgOnload (s : State) (nw nh cw ch : Nat) : State :=
  let s1 := { s with
    img := { status := .decoded, display := "block".toList }
    overlay := { s.overlay with
      width := nw
      height := nh
      styleWidth := (toString cw).toList ++ "px".toList
      styleHeight := (toString ch).toList ++ "px".toList
      display := "block".toList
      lineWidth := 1
      strokeStyle := "#000000".toList
      fillStyle := "#000000".toList } }
  clearOverlay s1

/-- The click handler of `clearBtn`. -/
def clickClear (s : State) : State :=
  let s1 := { s with
    currentBlob := none
    img := { status := .noSource, display := "none".toList }
    overlay := { s.overlay with display := "none".toList } }
  { clearOverlay s1 with resultBox := "<div class=\"muted\">No result yet.</div>".toList }

/-! ## Inspection request lifecycle -/

/-- Markup shown while a request is pending. -/
def processingMarkup : Str := "<div class=\"muted\">Processing...</div>".toList

/-- Markup of the failure indicator. -/
def failedMarkup : Str := "<div class=\"badge err\">Request failed</div>".toList

/-- The click handler of `inspectBtn` up to its first `await`: the guard, the form, the
placeholder and the call of `fetch`. -/
def clickInspect (s : State) : State :=
  match s.currentBlob with
  | none => { s with alerts := s.alerts ++ ["Choose an image first.".toList] }
  | some file =>
    let fd : FormData :=
      { part_id := strOr s.partSel.value "example_part".toList
        file := file
        psm := s.psm
        adaptive := if s.adaptive then "1".toList else "0".toList
        whitelist := strOr s.whitelist [] }
    { s with resultBox := processingMarkup, requests := s.requests ++ [fd],
             inflight := s.inflight + 1 }

/-- The rest of the click handler of `inspectBtn`, run when the response `r` of a pending
request arrives: `res.json()`, `renderResult`, and the `catch` branch. -/
def onInspectResponse (E : Host) (s : State) (r : Response) (ts : Str) : State :=
  match r with
  | .networkError => { s with resultBox := failedMarkup }
  | .invalidBody _ => { s with resultBox := failedMarkup }
  | .json _ j =>
    match renderResult E s j ts with
    | .ok s1 => s1
    | .error s1 => { s1 with resultBox := failedMarkup }

/-- Whether the handler, receiving `r` in state `s`, runs `renderResult` to its end. -/
def rendersToCompletion (E : Host) (s : State) (r : Response) (ts : Str) : Bool :=
  match r with
  | .json _ j =>
    match renderResult E s j ts with
    | .ok _ => true
    | .error _ => false
  | _ => false

/-- The request of state `s` that is no longer pending. -/
def settle (s : State) : State := { s with inflight := s.inflight - 1 }

/-- One whole submission with no other event in between: the click, and the response when
a request went out. -/
def submit (E : Host) (s : State) (r : Response) (ts : Str) : State :=
  match s.currentBlob with
  | none => clickInspect s
  | some _ => onInspectResponse E (settle (clickInspect s)) r ts

/-! ## Catalog loader -/

/-- The option element built in the loop of `loadKB` for the entry `p`; `none` when
reading `p.part_id` throws or a conversion to a string throws (the setter of `opt.value`,
the template literal, the operator `+`). -/
def partOption (E : Host) (p : JsVal) : Option SelectOption := do
  let id ← getProp p "part_id".toList
  let value ← toStringOf E id
  let number ← getProp p "part_number".toList
  let suffix ← if truthy number then
      (toStringOf E number).map fun t => " (".toList ++ t ++ ")".toList
    else some []
  let label ← toStringOf E id
  some { value := value, textContent := label ++ suffix }

/-- The values `for (const p of parts)` runs over; `none` when `parts` is not iterable. -/
def iterate (parts : JsVal) : Option (List JsVal) :=
  match parts with
  | .arr xs => some xs
  | .str cs => some (cs.map fun c => .str [c])
  | _ => none

/-- The loop of `loadKB`; `Except.error` carries the selector as filled at the throw. -/
def populate (E : Host) (sel : PartSel) : List JsVal → Except PartSel PartSel
  | [] => .ok sel
  | p :: rest =>
    match partOption E p with
    | none => .error sel
    | some opt => populate E (sel.appendChild opt) rest

/-- The call `parts.findIndex(p => p.part_id === "example_part")` on an array, counting
from `i`. -/
def findExample (i : Nat) : List JsVal → Option Nat
  | [] => none
  | p :: rest =>
    match getProp p "part_id".toList with
    | some (.str id) => if id = "example_part".toList then some i else findExample (i + 1) rest
    | _ => findExample (i + 1) rest

/-- The option appended in the `catch` branch of `loadKB`. -/
def fallbackOption : SelectOption :=
  { value := "example_part".toList, textContent := "example_part".toList }

/-- The `try` block of `loadKB` on the part selector `sel0`, given the response `r` to
`GET /kb`.  `Except.error` is a thrown exception and carries the selector as it is at the
throw. -/
def loadKBTry (E : Host) (sel0 : PartSel) (r : Response) : Except PartSel PartSel :=
  match r with
  | .networkError => .error sel0
  | .invalidBody _ => .error sel0
  | .json _ j =>
    match getProp j "parts".toList with
    | none => .error sel0
    | some p =>
      match iterate (orElse p (.arr [])) with
      | none => .error PartSel.cleared
      | some items =>
        match populate E PartSel.cleared items with
        | .error sel => .error sel
        | .ok sel =>
          match orElse p (.arr []) with
          | .arr xs =>
            match findExample 0 xs with
            | some idx => .ok { sel with selectedIndex := some idx }
            | none => .ok sel
          | _ => .error sel

/-- What `loadKB` makes of the part selector: the `try` block, and the `catch` branch
when it throws. -/
def loadKBSelector (E : Host) (sel0 : PartSel) (r : Response) : PartSel :=
  match loadKBTry E sel0 r with
  | .ok sel => sel
  | .error sel => sel.appendChild fallbackOption

/-- The function `loadKB`, given the response `r` to `GET /kb`; the part selector is all
it writes. -/
def loadKB (E : Host) (s : State) (r : Response) : State :=
  { s with partSel := loadKBSelector E s.partSel r }

/-! ## Sessions -/

/-- What can happen to the page. -/
inductive Event where
  | kbResponse (r : Response)
  | fileChosen (f : Option File)
  | fileDropped (f : Option File)
  | imgLoaded (nw nh cw ch : Nat)
  | imgError
  | selectPart (i : Nat)
  | setPsm (v : Str)
  | setAdaptive (b : Bool)
  | setWhitelist (v : Str)
  | inspectClicked
  | inspectResponse (r : Response) (ts : Str)
  | clearClicked
  | exportClicked
  | copyClicked

/-- The state after one event.  A load or error event of the image only comes while the
image is loading, a response only while a request is pending. -/
def step (E : Host) (s : State) : Event → State
  | .kbResponse r => loadKB E s r
  | .fileChosen f => previewFile s f
  | .fileDropped f => if f.isSome then previewFile s f else s
  | .imgLoaded nw nh cw ch =>
    if s.img.status = .loading then imgOnload s nw nh cw ch else s
  | .imgError =>
    if s.img.status = .loading then { s with img := { s.img with status := .broken } } else s
  | .selectPart i =>
    if i < s.partSel.options.length then
      { s with partSel := { s.partSel with selectedIndex := some i } }
    else s
  | .setPsm v => { s with psm := v }
  | .setAdaptive b => { s with adaptive := b }
  | .setWhitelist v => { s with whitelist := v }
  | .inspectClicked => clickInspect s
  | .inspectResponse r ts =>
    if 0 < s.inflight then onInspectResponse E (settle s) r ts else s
  | .clearClicked => clickClear s
  | .exportClicked => exportCSV E s
  | .copyClicked => copyLastJson E s

/-- The state after a sequence of events. -/
def run (E : Host) (s : State) : List Event → State
  | [] => s
  | e :: es => run E (step E s e) es

/-- The session when the script has just been evaluated: `lastJson = null`,
`currentBlob = null`, `history = []`, on a page whose elements are still empty. -/
def init : State :=
  { lastJson := .null
    currentBlob := none
    history := []
    partSel := PartSel.cleared
    img := { status := .noSource, display := [] }
    overlay := { width := 300, height := 150, styleWidth := [], styleHeight := [],
                 display := [], lineWidth := 1, strokeStyle := "#000000".toList,
                 fillStyle := "#000000".toList, ops := [] }
    resultBox := []
    historyTable := []
    psm := []
    adaptive := false
    whitelist := []
    alerts := []
    requests := []
    inflight := 0
    downloads := []
    clipboard := none }

/-! ## Reading CSV back

The reader below follows the quoting rules of RFC 4180: a field is either bare or
enclosed in double quotes; inside quotes a comma, a line break and a doubled quote are
data, the doubled quote standing for one quote; a comma ends a field and a line break
(LF or CRLF) outside quotes ends a record.  Text that breaks the rules is rejected. -/

/-- Where the reader stands: before a field, in a bare field, inside quotes, just after
a quote met inside quotes, or after a carriage return outside quotes. -/
inductive CsvMode where
  | fieldStart
  | bare
  | quoted
  | afterQuote
  | afterCR

/-- What the reader has collected: the field and the record being read (last first) and
the records read (last first). -/
structure CsvAcc where
  field : Str
  row : List Str
  rows : List (List Str)

/-- The collection after the current field ends. -/
def CsvAcc.endField (a : CsvAcc) : CsvAcc :=
  { field := [], row := a.field.reverse :: a.row, rows := a.rows }

/-- The collection after the current record ends. -/
def CsvAcc.endRecord (a : CsvAcc) : CsvAcc :=
  { field := [], row := [], rows := (a.field.reverse :: a.row).reverse :: a.rows }

/-- The reader, from a given mode and collection. -/
def parseCsvFrom : CsvMode → CsvAcc → Str → Option (List (List Str))
  | .quoted, _, [] => none
  | .afterCR, _, [] => none
  | .fieldStart, a, [] =>
    if a.row.isEmpty then some a.rows.reverse else some a.endRecord.rows.reverse
  | .bare, a, [] => some a.endRecord.rows.reverse
  | .afterQuote, a, [] => some a.endRecord.rows.reverse
  | .fieldStart, a, c :: cs =>
    if c = dquote then parseCsvFrom .quoted a cs
    else if c = ',' then parseCsvFrom .fieldStart a.endField cs
    else if c = '\n' then parseCsvFrom .fieldStart a.endRecord cs
    else if c = '\r' then parseCsvFrom .afterCR a cs
    else parseCsvFrom .bare { a with field := c :: a.field } cs
  | .bare, a, c :: cs =>
    if c = dquote then none
    else if c = ',' then parseCsvFrom .fieldStart a.endField cs
    else if c = '\n' then parseCsvFrom .fieldStart a.endRecord cs
    else if c = '\r' then parseCsvFrom .afterCR a cs
    else parseCsvFrom .bare { a with field := c :: a.field } cs
  | .quoted, a, c :: cs =>
    if c = dquote then parseCsvFrom .afterQuote a cs
    else parseCsvFrom .quoted { a with field := c :: a.field } cs
  | .afterQuote, a, c :: cs =>
    if c = dquote then parseCsvFrom .quoted { a with field := dquote :: a.field } cs
    else if c = ',' then parseCsvFrom .fieldStart a.endField cs
    else if c = '\n' then parseCsvFrom .fieldStart a.endRecord cs
    else if c = '\r' then parseCsvFrom .afterCR a cs
    else none
  | .afterCR, a, c :: cs =>
    if c = '\n' then parseCsvFrom .fieldStart a.endRecord cs else none

/-- The records of a CSV text, each a list of fields; `none` for text that is not CSV. -/
def parseCsv (text : Str) : Option (List (List Str)) :=
  parseCsvFrom .fieldStart { field := [], row := [], rows := [] } text

/-- A ledger of two records whose fields hold commas, quotes and a line break. -/
def sampleLedger : List HistoryRecord :=
  [{ ts := "10:15:02 AM".toList, part := "example_part".toList,
     verdict := .str "Suspect".toList, conf := .str "n/a".toList,
     reasons := "bad_font, \"odd\"".toList,
     json := .obj [("verdict".toList, .str "Suspect".toList),
       ("scores".toList, .obj [("final_conf".toList, .str "n/a".toList)]),
       ("reason_codes".toList, .arr [.str "bad_font,".toList, .str "\"odd\"".toList])] },
   { ts := "10:14:40 AM".toList, part := "a\nb".toList, verdict := .str "Genuine".toList,
     conf := .str "\"".toList, reasons := [],
     json := .obj [("verdict".toList, .str "Genuine".toList),
       ("scores".toList, .obj [("final_conf".toList, .str "\"".toList)])] }]

/-! ## Examples of values -/

/-- A well-formed result of the service. -/
def genuineResult : JsVal :=
  .obj [("verdict".toList, .str "Genuine".toList),
        ("scores".toList, .obj [("ocr_conf".toList, .num 1), ("final_conf".toList, .num 1)]),
        ("extracted".toList, .obj [("text".toList, .str "AB12".toList)]),
        ("reason_codes".toList, .arr []),
        ("bbox".toList, .arr [.num 1, .num 2, .num 3, .num 4])]

/-- A result whose extracted text holds markup. -/
def markupResult : JsVal :=
  .obj [("verdict".toList, .str "Genuine".toList),
        ("extracted".toList, .obj [("text".toList, .str "<b>".toList)])]

/-- The text of one field as `exportCSV` writes it. -/
def quoteField (f : Str) : Str := dquote :: (doubleQuotes f ++ [dquote])

/-- The text of one record as `exportCSV` writes it. -/
def csvLine (fs : List Str) : Str := joinWith ",".toList (fs.map quoteField)

/-- The fields of the rows of `exportCSV` in their string form. -/
def csvExpected (E : Host) (history : List HistoryRecord) : List (List Str) :=
  ["time".toList, "part".toList, "verdict".toList, "final_conf".toList, "reasons".toList]
  :: history.map fun h => [h.ts, h.part, toStr E h.verdict, toStr E h.conf, h.reasons]

/-- A session whose ledger is `sampleLedger`. -/
def ledgerSession : State := { init with history := sampleLedger }

/-- A session in which a file has been chosen and is still being decoded. -/
def pendingDecodeSession : State := previewFile init (some { id := 1 })

/-- A session in which a file has been chosen and decoded as an 800 x 600 image. -/
def loadedSession : State := imgOnload pendingDecodeSession 800 600 400 300

/-- A result whose `reason_codes` is a number. -/
def numberReasonsResult : JsVal :=
  .obj [("verdict".toList, .str "Suspect".toList),
        ("reason_codes".toList, .num 5),
        ("bbox".toList, .arr [.num 1, .num 2, .num 3, .num 4])]

/-- A result whose verdict is an object with an own property `toString`. -/
def unconvertibleVerdictResult : JsVal :=
  .obj [("verdict".toList, .obj [("toString".toList, .num 1)])]

/-- A catalog whose second entry has such an object as its `part_id`. -/
def unconvertibleCatalog : JsVal :=
  .obj [("parts".toList, .arr [.obj [("part_id".toList, .str "bolt".toList)],
    .obj [("part_id".toList, .obj [("toString".toList, .num 1)])]])]

/-- The option built for an entry with no `part_id`. -/
def undefinedOption : SelectOption :=
  { value := "undefined".toList, textContent := "undefined".toList }

/-- The selector after `appendChild` of each of `opts` in turn. -/
def appendAll (sel : PartSel) (opts : List SelectOption) : PartSel :=
  opts.foldl PartSel.appendChild sel

/-- How many events of a session are responses that `renderResult` renders to its end. -/
def completedCount (E : Host) (s : State) : List Event → Nat
  | [] => 0
  | .inspectResponse r ts :: es =>
    (if 0 < s.inflight ∧ rendersToCompletion E (settle s) r ts = true then 1 else 0)
      + completedCount E (step E s (.inspectResponse r ts)) es
  | e :: es => completedCount E (step E s e) es

/-- A result whose `reason_codes` is a string. -/
def stringReasonsResult : JsVal :=
  .obj [("verdict".toList, .str "Suspect".toList), ("reason_codes".toList, .str "oops".toList)]

/-- The form `clickInspect` sends from state `s` for the held file `file`. -/
def formOf (s : State) (file : File) : FormData :=
  { part_id := strOr s.partSel.value "example_part".toList
    file := file
    psm := s.psm
    adaptive := if s.adaptive then "1".toList else "0".toList
    whitelist := strOr s.whitelist [] }

/-- A session in which the chosen file could not be decoded. -/
def brokenImageSession : State :=
  { pendingDecodeSession with img := { pendingDecodeSession.img with status := .broken } }

/-- A catalog of two parts. -/
def twoPartCatalog : JsVal :=
  .obj [("parts".toList, .arr [.obj [("part_id".toList, .str "bolt".toList)],
                                .obj [("part_id".toList, .str "nut".toList)]])]

/-- A catalog whose second entry is `null`. -/
def brokenCatalog : JsVal :=
  .obj [("parts".toList, .arr [.obj [("part_id".toList, .str "bolt".toList)], .null])]

/-- A catalog with no parts. -/
def emptyCatalog : JsVal := .obj [("parts".toList, .arr [])]

/-- A page whose part selector already holds one option when `loadKB` runs. -/
def prefilledPage : State :=
  { init with partSel := { options := [{ value := "m8".toList, textContent := "m8".toList }],
                           selectedIndex := some 0 } }

/-- A session: the catalog comes back empty, a file is chosen and decoded, the operator
submits, and the service answers with `genuineResult`. -/
def emptyCatalogSession (ts : Str) : List Event :=
  [.kbResponse (.json 200 emptyCatalog), .fileChosen (some { id := 1 }),
   .imgLoaded 800 600 400 300, .inspectClicked,
   .inspectResponse (.json 200 genuineResult) ts]

/-- A session: the catalog lists two parts, a file is chosen and decoded, the operator
submits with the first part selected, picks the second part while the request is
pending, and then the service answers with `genuineResult`. -/
def reselectSession (ts : Str) : List Event :=
  [.kbResponse (.json 200 twoPartCatalog), .fileChosen (some { id := 1 }),
   .imgLoaded 800 600 400 300, .inspectClicked, .selectPart 1,
   .inspectResponse (.json 200 genuineResult) ts]

/-! # Properties -/

/-! ## Verdict and confidence tiers -/

theorem geNum_num (E : Host) (v c : ℚ) : geNum E (.num v) c = decide (c ≤ v) := rfl

/-- C2, as the code has it: `verdictBadge` gives "Genuine" the class "ok", "Suspect" the
class "warn", and every other verdict, a string or not, the class "err". -/
theorem verdictClass_tiers :
    verdictClass (.str "Genuine".toList) = "ok".toList ∧
    verdictClass (.str "Suspect".toList) = "warn".toList ∧
    ∀ v : JsVal, v ≠ .str "Genuine".toList → v ≠ .str "Suspect".toList →
      verdictClass v = "err".toList := by
  refine ⟨by decide, by decide, ?_⟩
  intro v hg hs
  cases v with
  | str s =>
    have h1 : s ≠ "Genuine".toList := fun h => hg (by rw [h])
    have h2 : s ≠ "Suspect".toList := fun h => hs (by rw [h])
    show (if s = "Genuine".toList then "ok".toList
      else if s = "Suspect".toList then "warn".toList else "err".toList) = "err".toList
    rw [if_neg h1, if_neg h2]
  | _ => rfl

/-- C2 fails as stated: the verdict "Unknown", which `renderResult` puts in for an absent
verdict, gets the class "err" and not "warn"; so does a verdict the service might add. -/
theorem verdictClass_unknown_is_err :
    orElse .undefined (.str "Unknown".toList) = .str "Unknown".toList ∧
    verdictClass (.str "Unknown".toList) = "err".toList ∧
    verdictClass (.str "Unknown".toList) ≠ "warn".toList ∧
    verdictClass (.str "Counterfeit".toList) = "err".toList := by
  refine ⟨rfl, by decide, by decide, by decide⟩

/-- C9: for every number `v`, `confBadge` picks "ok" exactly when `v >= 0.75`, "warn"
exactly when `0.5 <= v < 0.75`, and "err" exactly when `v < 0.5`; so 0.80 and 0.75 are
"ok", 0.60 and 0.50 are "warn", 0.30 is "err". -/
theorem confClass_tiers (E : Host) :
    (∀ v : ℚ, (confClass E (.num v) = "ok".toList ↔ 3/4 ≤ v) ∧
      (confClass E (.num v) = "warn".toList ↔ 1/2 ≤ v ∧ v < 3/4) ∧
      (confClass E (.num v) = "err".toList ↔ v < 1/2)) ∧
    confClass E (.num (4/5)) = "ok".toList ∧
    confClass E (.num (3/5)) = "warn".toList ∧
    confClass E (.num (3/10)) = "err".toList ∧
    confClass E (.num (3/4)) = "ok".toList ∧
    confClass E (.num (1/2)) = "warn".toList := by
  have key : ∀ v : ℚ, (confClass E (.num v) = "ok".toList ↔ 3/4 ≤ v) ∧
      (confClass E (.num v) = "warn".toList ↔ 1/2 ≤ v ∧ v < 3/4) ∧
      (confClass E (.num v) = "err".toList ↔ v < 1/2) := by
    intro v
    by_cases h1 : (3/4 : ℚ) ≤ v
    · have h2 : (1/2 : ℚ) ≤ v := le_trans (by norm_num) h1
      have hc : confClass E (.num v) = "ok".toList := by
        unfold confClass
        rw [geNum_num, if_pos (decide_eq_true h1)]
      rw [hc]
      refine ⟨by simp [h1], ?_, ?_⟩
      · constructor
        · intro h; exact absurd h (by decide)
        · intro h; exact absurd h1 (not_le.mpr h.2)
      · constructor
        · intro h; exact absurd h (by decide)
        · intro h; exact absurd h2 (not_le.mpr h)
    · by_cases h2 : (1/2 : ℚ) ≤ v
      · have hc : confClass E (.num v) = "warn".toList := by
          unfold confClass
          rw [geNum_num, geNum_num, if_neg (by simpa using h1), if_pos (decide_eq_true h2)]
        rw [hc]
        refine ⟨?_, ?_, ?_⟩
        · constructor
          · intro h; exact absurd h (by decide)
          · intro h; exact absurd h h1
        · constructor
          · intro _; exact ⟨h2, not_le.mp h1⟩
          · intro _; rfl
        · constructor
          · intro h; exact absurd h (by decide)
          · intro h; exact absurd h2 (not_le.mpr h)
      · have hc : confClass E (.num v) = "err".toList := by
          unfold confClass
          rw [geNum_num, geNum_num, if_neg (by simpa using h1), if_neg (by simpa using h2)]
        rw [hc]
        refine ⟨?_, ?_, ?_⟩
        · constructor
          · intro h; exact absurd h (by decide)
          · intro h; exact absurd h h1
        · constructor
          · intro h; exact absurd h (by decide)
          · intro h; exact absurd h.1 h2
        · constructor
          · intro _; exact not_le.mp h2
          · intro _; rfl
  refine ⟨key, ?_, ?_, ?_, ?_, ?_⟩
  · exact (key (4/5)).1.mpr (by norm_num)
  · exact (key (3/5)).2.1.mpr (by norm_num)
  · exact (key (3/10)).2.2.mpr (by norm_num)
  · exact (key (3/4)).1.mpr (by norm_num)
  · exact (key (1/2)).2.1.mpr (by norm_num)

/-! ## CSV round trip -/


theorem parse_quoted_body (f : Str) : ∀ (a : CsvAcc) (rest : Str),
    parseCsvFrom .quoted a (doubleQuotes f ++ dquote :: rest)
      = parseCsvFrom .afterQuote { a with field := f.reverse ++ a.field } rest := by
  induction f with
  | nil =>
    intro a rest
    simp [doubleQuotes, parseCsvFrom]
  | cons c cs ih =>
    intro a rest
    by_cases hc : c = dquote
    · subst hc
      simp [doubleQuotes, parseCsvFrom, ih]
    · simp [doubleQuotes, parseCsvFrom, hc, ih]

theorem parse_quoteField (f : Str) (row : List Str) (rows : List (List Str)) (rest : Str) :
    parseCsvFrom .fieldStart { field := [], row := row, rows := rows } (quoteField f ++ rest)
      = parseCsvFrom .afterQuote { field := f.reverse, row := row, rows := rows } rest := by
  have h := parse_quoted_body f { field := [], row := row, rows := rows } rest
  simp only [List.append_nil] at h
  rw [← h]
  simp [quoteField, parseCsvFrom]

theorem parse_csvLine (fs : List Str) : ∀ (f : Str) (row : List Str) (rows : List (List Str)),
    (∀ rest, parseCsvFrom .fieldStart { field := [], row := row, rows := rows }
        (csvLine (f :: fs) ++ '\n' :: rest)
      = parseCsvFrom .fieldStart
          { field := [], row := [], rows := (row.reverse ++ f :: fs) :: rows } rest) ∧
    parseCsvFrom .fieldStart { field := [], row := row, rows := rows } (csvLine (f :: fs))
      = some (((row.reverse ++ f :: fs) :: rows).reverse) := by
  induction fs with
  | nil =>
    intro f row rows
    constructor
    · intro rest
      have h := parse_quoteField f row rows ('\n' :: rest)
      simp only [csvLine, List.map, joinWith]
      rw [h]
      simp [parseCsvFrom, CsvAcc.endRecord, dquote]
    · have h := parse_quoteField f row rows []
      simp only [List.append_nil] at h
      simp only [csvLine, List.map, joinWith]
      rw [h]
      simp [parseCsvFrom, CsvAcc.endRecord]
  | cons g gs ih =>
    intro f row rows
    have hline : csvLine (f :: g :: gs) = quoteField f ++ (',' :: csvLine (g :: gs)) := by
      simp [csvLine, joinWith]
    have hstep : ∀ rest, parseCsvFrom .fieldStart { field := [], row := row, rows := rows }
        (quoteField f ++ (',' :: rest))
        = parseCsvFrom .fieldStart { field := [], row := f :: row, rows := rows } rest := by
      intro rest
      rw [parse_quoteField]
      simp [parseCsvFrom, CsvAcc.endField, dquote]
    constructor
    · intro rest
      rw [hline, List.append_assoc, List.cons_append, hstep, (ih g (f :: row) rows).1]
      simp
    · rw [hline, hstep, (ih g (f :: row) rows).2]
      simp

theorem parse_lines (ls : List (List Str)) : ∀ (f : Str) (fs : List Str)
    (rows : List (List Str)), (∀ l ∈ ls, l ≠ []) →
    parseCsvFrom .fieldStart { field := [], row := [], rows := rows }
        (joinWith "\n".toList (((f :: fs) :: ls).map csvLine))
      = some (rows.reverse ++ (f :: fs) :: ls) := by
  induction ls with
  | nil =>
    intro f fs rows _
    have h := (parse_csvLine fs f [] rows).2
    simpa [joinWith] using h
  | cons l ls ih =>
    intro f fs rows hne
    have hl : l ≠ [] := hne l (List.mem_cons_self _ _)
    obtain ⟨g, gs, rfl⟩ := List.exists_cons_of_ne_nil hl
    have h := (parse_csvLine fs f [] rows).1
      (joinWith "\n".toList (((g :: gs) :: ls).map csvLine))
    have hjoin : joinWith "\n".toList (((f :: fs) :: (g :: gs) :: ls).map csvLine)
        = csvLine (f :: fs) ++ '\n' :: joinWith "\n".toList (((g :: gs) :: ls).map csvLine) := by
      simp [joinWith]
    rw [hjoin, h, ih g gs _ (fun l hl => hne l (List.mem_cons_of_mem _ hl))]
    simp

theorem csvText_eq_lines (E : Host) (history : List HistoryRecord) :
    csvText E history = joinWith "\n".toList ((csvExpected E history).map csvLine) := by
  unfold csvText
  congr 1
  simp [csvRows, csvExpected, csvLine, csvField, quoteField, toStr, List.map_map,
    Function.comp_def]

/-- C1: for every non-empty ledger, `exportCSV` offers one more download, named
`inspection_history.csv`, and reading its text back by the quoting rules of RFC 4180
gives the header row `time,part,verdict,final_conf,reasons` and then one row per record
in ledger order, each field the string form of the field of the record, whatever
characters the fields hold. -/
theorem exportCSV_round_trip (E : Host) (s : State) (h : s.history ≠ []) :
    (∃ d : Download, (exportCSV E s).downloads = s.downloads ++ [d] ∧
      d.name = "inspection_history.csv".toList ∧ d.text = csvText E s.history) ∧
    parseCsv (csvText E s.history)
      = some (["time".toList, "part".toList, "verdict".toList, "final_conf".toList,
          "reasons".toList]
        :: s.history.map fun r => [r.ts, r.part, toStr E r.verdict, toStr E r.conf,
          r.reasons]) := by
  constructor
  · have hlen : s.history.length ≠ 0 := by
      intro h0
      exact h (List.length_eq_zero.mp h0)
    refine ⟨{ name := "inspection_history.csv".toList, mime := "text/csv".toList,
              text := csvText E s.history }, ?_, rfl, rfl⟩
    unfold exportCSV
    rw [if_neg hlen]
  · rw [csvText_eq_lines]
    unfold parseCsv csvExpected
    rw [parse_lines]
    · rfl
    · intro l hl
      obtain ⟨r, _, rfl⟩ := List.mem_map.mp hl
      exact List.cons_ne_nil _ _

/-- C1 at a ledger whose fields hold a comma, quotes and a line break:
`reasons = bad_font, "odd"` comes back exactly. -/
theorem exportCSV_round_trip_witness :
    ledgerSession.history ≠ [] ∧
    ∀ E : Host, parseCsv (csvText E sampleLedger)
      = some [["time".toList, "part".toList, "verdict".toList, "final_conf".toList,
               "reasons".toList],
              ["10:15:02 AM".toList, "example_part".toList, "Suspect".toList, "n/a".toList,
               "bad_font, \"odd\"".toList],
              ["10:14:40 AM".toList, "a\nb".toList, "Genuine".toList, "\"".toList, []]] :=
  ⟨List.cons_ne_nil _ _, fun E =>
    (exportCSV_round_trip E ledgerSession (List.cons_ne_nil _ _)).2⟩

/-! ## What the renderer writes -/

theorem toStringOf_some (E : Host) (v : JsVal) (t : Str) (h : toStringOf E v = some t) :
    convertible v = true := by
  unfold toStringOf at h
  by_cases hc : convertible v = true
  · exact hc
  · rw [if_neg hc] at h
    cases h

theorem toNumber_some (E : Host) (v : JsVal) (n : Option ℚ) (h : toNumber E v = some n) :
    convertible v = true := by
  cases v with
  | arr xs =>
    have hdef : toNumber E (.arr xs) = if allConvertible xs = true then
        some (E.stringToNumber (toStr E (.arr xs))) else none := rfl
    rw [hdef] at h
    by_cases hc : allConvertible xs = true
    · unfold convertible
      exact hc
    · rw [if_neg hc] at h
      cases h
  | obj kvs =>
    have hdef : toNumber E (.obj kvs) = if hasKey "toString".toList kvs = true then none
        else some none := rfl
    rw [hdef] at h
    by_cases hk : hasKey "toString".toList kvs = true
    · rw [if_pos hk] at h
      cases h
    · unfold convertible
      simpa using hk
  | _ => rfl

theorem drawBBox_frame (s : State) (bbox : JsVal) :
    ∃ ov : Overlay, drawBBox s bbox = .ok { s with overlay := ov } ∨
      drawBBox s bbox = .error { s with overlay := ov } := by
  unfold drawBBox
  split
  · exact ⟨s.overlay, Or.inl rfl⟩
  · split
    · exact ⟨s.overlay, Or.inr rfl⟩
    · split
      · exact ⟨_, Or.inl rfl⟩
      · exact ⟨_, Or.inr rfl⟩

theorem drawIfPresent_frame (s : State) (bbox : JsVal) :
    ∃ ov : Overlay,
      (if truthy bbox = true then drawBBox s bbox else .ok s) = .ok { s with overlay := ov } ∨
      (if truthy bbox = true then drawBBox s bbox else .ok s)
        = .error { s with overlay := ov } := by
  by_cases hb : truthy bbox = true
  · rw [if_pos hb]
    exact drawBBox_frame s bbox
  · rw [if_neg hb]
    exact ⟨s.overlay, Or.inl rfl⟩

theorem addHistory_some (E : Host) (s s' : State) (j : JsVal) (ts : Str)
    (h : addHistory E s j ts = some s') :
    ∃ (rec : HistoryRecord) (row : Str),
      s' = { s with historyTable := row :: s.historyTable, history := rec :: s.history } ∧
      rec.part = s.partSel.value ∧ rec.ts = ts ∧ rec.json = j ∧
      convertible rec.verdict = true ∧ convertible rec.conf = true := by
  unfold addHistory at h
  simp only [Option.bind_eq_bind, Option.bind_eq_some] at h
  obtain ⟨_, _, _, _, _, _, _, _, _, hv, _, hn, h⟩ := h
  cases h
  exact ⟨_, _, rfl, rfl, rfl, rfl, toStringOf_some E _ _ hv, toNumber_some E _ _ hn⟩

theorem renderResult_ok (E : Host) (s s' : State) (j : JsVal) (ts : Str)
    (h : renderResult E s j ts = .ok s') :
    ∃ (markup : Str) (ov : Overlay) (rec : HistoryRecord) (row : Str),
      s' = { s with lastJson := j, resultBox := markup, overlay := ov,
                    historyTable := row :: s.historyTable, history := rec :: s.history } ∧
      resultMarkup E j = some markup ∧ rec.part = s.partSel.value ∧ rec.ts = ts ∧
      rec.json = j ∧ convertible rec.verdict = true ∧ convertible rec.conf = true := by
  unfold renderResult at h
  generalize hm : resultMarkup E j = om at h
  cases om with
  | none => cases h
  | some markup =>
    simp only at h
    generalize hb : getProp j "bbox".toList = ob at h
    cases ob with
    | none => cases h
    | some bbox =>
      simp only at h
      obtain ⟨ov, hd | hd⟩ := drawIfPresent_frame
        ({ s with lastJson := j, resultBox := markup } : State) bbox
      · rw [hd] at h
        simp only at h
        generalize ha : addHistory E _ j ts = oa at h
        cases oa with
        | none => cases h
        | some s4 =>
          cases h
          obtain ⟨rec, row, hs4, hp, ht, hj, hcv, hcc⟩ := addHistory_some E _ s' j ts ha
          exact ⟨markup, ov, rec, row, hs4, rfl, hp, ht, hj, hcv, hcc⟩
      · rw [hd] at h
        cases h

theorem renderResult_error (E : Host) (s s' : State) (j : JsVal) (ts : Str)
    (h : renderResult E s j ts = .error s') :
    ∃ (rb : Str) (ov : Overlay),
      s' = { s with lastJson := j, resultBox := rb, overlay := ov } ∧
      (resultMarkup E j = none → rb = s.resultBox ∧ ov = s.overlay) := by
  unfold renderResult at h
  generalize hm : resultMarkup E j = om at h
  cases om with
  | none =>
    cases h
    exact ⟨s.resultBox, s.overlay, rfl, fun _ => ⟨rfl, rfl⟩⟩
  | some markup =>
    simp only at h
    generalize hb : getProp j "bbox".toList = ob at h
    cases ob with
    | none =>
      cases h
      exact ⟨markup, s.overlay, rfl, fun h0 => by cases h0⟩
    | some bbox =>
      simp only at h
      obtain ⟨ov, hd | hd⟩ := drawIfPresent_frame
        ({ s with lastJson := j, resultBox := markup } : State) bbox
      · rw [hd] at h
        simp only at h
        generalize ha : addHistory E _ j ts = oa at h
        cases oa with
        | none =>
          cases h
          exact ⟨markup, ov, rfl, fun h0 => by cases h0⟩
        | some s4 => cases h
      · rw [hd] at h
        cases h
        exact ⟨markup, ov, rfl, fun h0 => by cases h0⟩

/-! ## Submissions -/

theorem clickInspect_some (s : State) (file : File) (h : s.currentBlob = some file) :
    clickInspect s = { s with resultBox := processingMarkup,
                              requests := s.requests ++ [formOf s file],
                              inflight := s.inflight + 1 } := by
  unfold clickInspect
  rw [h]
  rfl

theorem onInspectResponse_json (E : Host) (s : State) (st : Nat) (j : JsVal) (ts : Str) :
    onInspectResponse E s (.json st j) ts =
      match renderResult E s j ts with
      | .ok s1 => s1
      | .error s1 => { s1 with resultBox := failedMarkup } := rfl

theorem resultMarkup_ne_failed (E : Host) (j : JsVal) (m : Str)
    (h : resultMarkup E j = some m) : m ≠ failedMarkup := by
  unfold resultMarkup at h
  simp only [Option.bind_eq_bind, Option.bind_eq_some] at h
  obtain ⟨_, _, _, _, _, _, _, _, h⟩ := h
  obtain ⟨vb, _, fb, _, ob, _, cell, _, h⟩ := h
  obtain ⟨_, _, chips, _, _, _, box, _, h⟩ := h
  cases h
  intro h
  have h2 := congrArg List.head? h
  have h3 : ∀ (a b c d e f : Str),
      (resultTemplate E j a b c d e f).head? = some '\n' := fun _ _ _ _ _ _ => rfl
  rw [h3] at h2
  exact absurd h2 (by decide)

theorem unconvertible_verdict_fails (E : Host) (s : State) (st : Nat) (ts : Str) :
    rendersToCompletion E s (.json st unconvertibleVerdictResult) ts = false := rfl

/-- C3, as the code has it: when a response ends in the `catch` branch (a rejected fetch,
a body that is not JSON, a parsed body on which `renderResult` throws), the handler shows
the failure indicator and leaves the history ledger and the history table exactly as they
were when the response arrived; the overlay drawing is as it was when no body was parsed
or the throw came while the markup was built; `lastJson` is as it was when no body was
parsed.  With no event between click and response these are the values from before the
click, which writes none of them. -/
theorem failed_submission_effects (E : Host) (s : State) (r : Response) (ts : Str)
    (hfail : rendersToCompletion E s r ts = false) :
    (onInspectResponse E s r ts).resultBox = failedMarkup ∧
    (onInspectResponse E s r ts).history = s.history ∧
    (onInspectResponse E s r ts).historyTable = s.historyTable ∧
    ((∀ st j, r ≠ .json st j) →
      (onInspectResponse E s r ts).lastJson = s.lastJson ∧
      (onInspectResponse E s r ts).overlay = s.overlay) ∧
    (∀ st j, r = .json st j → resultMarkup E j = none →
      (onInspectResponse E s r ts).overlay = s.overlay) ∧
    (∀ (s0 : State) (file : File), s0.currentBlob = some file →
      s = settle (clickInspect s0) →
      submit E s0 r ts = onInspectResponse E s r ts ∧ s.history = s0.history ∧
      s.historyTable = s0.historyTable ∧ s.lastJson = s0.lastJson ∧
      s.overlay = s0.overlay) ∧
    (∀ s1 : State, 0 < s1.inflight → s = settle s1 →
      step E s1 (.inspectResponse r ts) = onInspectResponse E s r ts ∧
      s.history = s1.history ∧ s.historyTable = s1.historyTable ∧
      s.lastJson = s1.lastJson ∧ s.overlay = s1.overlay) := by
  have hclick : ∀ (s0 : State) (file : File), s0.currentBlob = some file →
      s = settle (clickInspect s0) →
      submit E s0 r ts = onInspectResponse E s r ts ∧ s.history = s0.history ∧
      s.historyTable = s0.historyTable ∧ s.lastJson = s0.lastJson ∧
      s.overlay = s0.overlay := by
    intro s0 file hblob hs
    have hc := clickInspect_some s0 file hblob
    refine ⟨?_, ?_, ?_, ?_, ?_⟩
    · unfold submit
      rw [hblob, hs]
    · rw [hs, hc]; rfl
    · rw [hs, hc]; rfl
    · rw [hs, hc]; rfl
    · rw [hs, hc]; rfl
  have hstep : ∀ s1 : State, 0 < s1.inflight → s = settle s1 →
      step E s1 (.inspectResponse r ts) = onInspectResponse E s r ts ∧
      s.history = s1.history ∧ s.historyTable = s1.historyTable ∧
      s.lastJson = s1.lastJson ∧ s.overlay = s1.overlay := by
    intro s1 hpos hs
    refine ⟨?_, ?_, ?_, ?_, ?_⟩
    · show (if 0 < s1.inflight then onInspectResponse E (settle s1) r ts else s1) = _
      rw [if_pos hpos, hs]
    · rw [hs]; rfl
    · rw [hs]; rfl
    · rw [hs]; rfl
    · rw [hs]; rfl
  cases r with
  | networkError =>
    exact ⟨rfl, rfl, rfl, fun _ => ⟨rfl, rfl⟩, (fun _ _ h _ => by cases h), hclick, hstep⟩
  | invalidBody st0 =>
    exact ⟨rfl, rfl, rfl, fun _ => ⟨rfl, rfl⟩, (fun _ _ h _ => by cases h), hclick, hstep⟩
  | json st0 j0 =>
    unfold rendersToCompletion at hfail
    simp only at hfail
    generalize hres : renderResult E s j0 ts = res at hfail
    cases res with
    | ok s1 => simp at hfail
    | error s1 =>
      obtain ⟨rb, ov, hs1, hov⟩ := renderResult_error E _ s1 j0 ts hres
      have key : onInspectResponse E s (.json st0 j0) ts
          = { s1 with resultBox := failedMarkup } := by
        rw [onInspectResponse_json, hres]
      refine ⟨?_, ?_, ?_, fun h => absurd rfl (h st0 j0), ?_, hclick, hstep⟩
      · rw [key]
      · rw [key, hs1]
      · rw [key, hs1]
      · intro st j hj hm
        cases hj
        rw [key, hs1]
        exact (hov hm).2

/-- C3 at concrete failures in a session that holds a decoded image and has one request
pending: a body whose verdict is an object with an own `toString`, on which building the
markup throws, and a body that is not JSON. -/
theorem failed_submission_effects_witness :
    (∀ (E : Host) (ts : Str), rendersToCompletion E (settle (clickInspect loadedSession))
      (.json 200 unconvertibleVerdictResult) ts = false) ∧
    (∀ (E : Host) (ts : Str),
      (submit E loadedSession (.json 200 unconvertibleVerdictResult) ts).resultBox
        = failedMarkup ∧
      (submit E loadedSession (.json 200 unconvertibleVerdictResult) ts).history = [] ∧
      (submit E loadedSession (.json 200 unconvertibleVerdictResult) ts).overlay
        = loadedSession.overlay) ∧
    (∀ (E : Host) (ts : Str), rendersToCompletion E (settle (clickInspect loadedSession))
      (.invalidBody 502) ts = false) ∧
    (∀ (E : Host) (ts : Str),
      (submit E loadedSession (.invalidBody 502) ts).lastJson = .null ∧
      (submit E loadedSession (.invalidBody 502) ts).overlay = loadedSession.overlay) :=
  ⟨fun _ _ => rfl, fun E ts =>
    ⟨(failed_submission_effects E (settle (clickInspect loadedSession))
        (.json 200 unconvertibleVerdictResult) ts rfl).1,
     (failed_submission_effects E (settle (clickInspect loadedSession))
        (.json 200 unconvertibleVerdictResult) ts rfl).2.1,
     (failed_submission_effects E (settle (clickInspect loadedSession))
        (.json 200 unconvertibleVerdictResult) ts rfl).2.2.2.2.1 200 _ rfl rfl⟩,
   fun _ _ => rfl, fun E ts =>
    (failed_submission_effects E (settle (clickInspect loadedSession))
        (.invalidBody 502) ts rfl).2.2.2.1 (fun _ _ h => by cases h)⟩

/-- C3 fails as stated: a parsed body that cannot be rendered ends in the `catch` branch
with `lastJson` replaced by that body, and a body whose `reason_codes` is a number fails
only in `addHistory`, after its bounding box has been drawn on the overlay. -/
theorem failure_is_not_atomic :
    (∀ (E : Host) (ts : Str),
      (submit E loadedSession (.json 200 stringReasonsResult) ts).resultBox = failedMarkup ∧
      loadedSession.lastJson = .null ∧
      (submit E loadedSession (.json 200 stringReasonsResult) ts).lastJson
        = stringReasonsResult) ∧
    (∀ (E : Host) (ts : Str),
      (submit E loadedSession (.json 200 numberReasonsResult) ts).resultBox = failedMarkup ∧
      loadedSession.overlay.ops = [] ∧
      (submit E loadedSession (.json 200 numberReasonsResult) ts).overlay.ops
        = [.strokeRect (.num 1) (.num 2) (.num 3) (.num 4),
           .fillRect (.num 1) (.num 2) (.num 3) (.num 4)] ∧
      (submit E loadedSession (.json 200 numberReasonsResult) ts).lastJson
        = numberReasonsResult) :=
  ⟨fun _ _ => ⟨rfl, rfl, rfl⟩, fun _ _ => ⟨rfl, rfl, rfl, rfl⟩⟩

theorem onInspectResponse_completed (E : Host) (s : State) (st : Nat) (j : JsVal) (ts : Str)
    (hdone : rendersToCompletion E s (.json st j) ts = true) :
    ∃ (m : Str) (rec : HistoryRecord), resultMarkup E j = some m ∧
      (onInspectResponse E s (.json st j) ts).resultBox = m ∧ m ≠ failedMarkup ∧
      (onInspectResponse E s (.json st j) ts).history = rec :: s.history := by
  unfold rendersToCompletion at hdone
  simp only at hdone
  rw [onInspectResponse_json]
  generalize hres : renderResult E s j ts = res at hdone
  cases res with
  | error s1 => simp at hdone
  | ok s1 =>
    obtain ⟨m, ov, rec, row, hs1, hm, _, _, _⟩ := renderResult_ok E s s1 j ts hres
    refine ⟨m, rec, hm, ?_, resultMarkup_ne_failed E j m hm, ?_⟩
    · rw [hs1]
    · rw [hs1]

theorem onInspectResponse_failed (E : Host) (s : State) (st : Nat) (j : JsVal) (ts : Str)
    (hfail : rendersToCompletion E s (.json st j) ts = false) :
    (onInspectResponse E s (.json st j) ts).resultBox = failedMarkup ∧
    (onInspectResponse E s (.json st j) ts).history = s.history := by
  unfold rendersToCompletion at hfail
  simp only at hfail
  rw [onInspectResponse_json]
  generalize hres : renderResult E s j ts = res at hfail
  cases res with
  | ok s1 => simp at hfail
  | error s1 =>
    obtain ⟨rb, ov, hs1, _⟩ := renderResult_error E s s1 j ts hres
    refine ⟨rfl, ?_⟩
    rw [hs1]

/-- C4, as the code has it: the handler never looks at the HTTP status.  A response with
any status is handled as a 200 response with the same body: a body that `renderResult`
renders to its end is shown as the result and gets a history record; the failure
indicator with no record is what a rejected fetch, a body that is not JSON, or a body on
which `renderResult` throws gives. -/
theorem response_status_is_ignored (E : Host) (s : State) (st : Nat) (ts : Str) :
    (∀ j, onInspectResponse E s (.json st j) ts = onInspectResponse E s (.json 200 j) ts) ∧
    (∀ r, submit E s r ts = submit E s
      (match r with
       | .json _ j => .json 200 j
       | .invalidBody _ => .invalidBody 200
       | .networkError => .networkError) ts) ∧
    (∀ j, rendersToCompletion E s (.json st j) ts = true →
      ∃ (m : Str) (rec : HistoryRecord), resultMarkup E j = some m ∧
        (onInspectResponse E s (.json st j) ts).resultBox = m ∧ m ≠ failedMarkup ∧
        (onInspectResponse E s (.json st j) ts).history = rec :: s.history) ∧
    (∀ j, rendersToCompletion E s (.json st j) ts = false →
      (onInspectResponse E s (.json st j) ts).resultBox = failedMarkup ∧
      (onInspectResponse E s (.json st j) ts).history = s.history) ∧
    ((onInspectResponse E s (.invalidBody st) ts).resultBox = failedMarkup ∧
      (onInspectResponse E s (.invalidBody st) ts).history = s.history) ∧
    ((onInspectResponse E s .networkError ts).resultBox = failedMarkup ∧
      (onInspectResponse E s .networkError ts).history = s.history) := by
  refine ⟨fun _ => rfl, ?_, ?_, ?_, ⟨rfl, rfl⟩, ⟨rfl, rfl⟩⟩
  · intro r
    cases r <;> rfl
  · intro j hdone
    exact onInspectResponse_completed E s st j ts hdone
  · intro j hfail
    exact onInspectResponse_failed E s st j ts hfail

/-- C4 fails as stated: a response with status 500 whose body is a well-formed result is
rendered as a result, not as a failure, and gets a history record. -/
theorem non2xx_body_is_rendered :
    (∀ (E : Host) (ts : Str),
      (submit E loadedSession (.json 500 genuineResult) ts).resultBox ≠ failedMarkup) ∧
    (∀ (E : Host) (ts : Str),
      resultMarkup E genuineResult
        = some (submit E loadedSession (.json 500 genuineResult) ts).resultBox) ∧
    (∀ (E : Host) (ts : Str), loadedSession.history.length = 0 ∧
      (submit E loadedSession (.json 500 genuineResult) ts).history.length = 1) :=
  ⟨fun E _ => resultMarkup_ne_failed E genuineResult _ rfl, fun _ _ => rfl,
   fun _ _ => ⟨rfl, rfl⟩⟩

/-! ## History ledger -/

theorem step_history_other (E : Host) (s : State) (e : Event)
    (h : ∀ r ts, e ≠ .inspectResponse r ts) : (step E s e).history = s.history := by
  cases e with
  | inspectResponse r ts => exact absurd rfl (h r ts)
  | kbResponse r =>
    rfl
  | fileChosen f => cases f <;> rfl
  | fileDropped f => cases f <;> rfl
  | imgLoaded nw nh cw ch =>
    show (if s.img.status = .loading then imgOnload s nw nh cw ch else s).history = s.history
    split <;> rfl
  | imgError =>
    show (if s.img.status = .loading then
      ({ s with img := { s.img with status := .broken } } : State) else s).history = s.history
    split <;> rfl
  | selectPart i =>
    show (if i < s.partSel.options.length then
      ({ s with partSel := { s.partSel with selectedIndex := some i } } : State)
      else s).history = s.history
    split <;> rfl
  | setPsm v => rfl
  | setAdaptive b => rfl
  | setWhitelist v => rfl
  | inspectClicked =>
    show (clickInspect s).history = s.history
    unfold clickInspect
    split <;> rfl
  | clearClicked => rfl
  | exportClicked =>
    show (exportCSV E s).history = s.history
    unfold exportCSV
    split <;> rfl
  | copyClicked =>
    show (copyLastJson E s).history = s.history
    unfold copyLastJson
    split <;> rfl

theorem step_history_response (E : Host) (s : State) (r : Response) (ts : Str) :
    (0 < s.inflight ∧ rendersToCompletion E (settle s) r ts = true →
      ∃ rec : HistoryRecord, (step E s (.inspectResponse r ts)).history = rec :: s.history ∧
        rec.ts = ts ∧ rec.part = s.partSel.value ∧
        convertible rec.verdict = true ∧ convertible rec.conf = true) ∧
    (¬ (0 < s.inflight ∧ rendersToCompletion E (settle s) r ts = true) →
      (step E s (.inspectResponse r ts)).history = s.history) := by
  have hstep : step E s (.inspectResponse r ts)
      = if 0 < s.inflight then onInspectResponse E (settle s) r ts else s := rfl
  constructor
  · rintro ⟨hpos, hdone⟩
    rw [hstep, if_pos hpos]
    cases r with
    | networkError => simp [rendersToCompletion] at hdone
    | invalidBody st => simp [rendersToCompletion] at hdone
    | json st j =>
      unfold rendersToCompletion at hdone
      simp only at hdone
      generalize hres : renderResult E (settle s) j ts = res at hdone
      cases res with
      | error s1 => simp at hdone
      | ok s1 =>
        obtain ⟨m, ov, rec, row, hs1, _, hp, ht, _, hcv, hcc⟩ :=
          renderResult_ok E _ s1 j ts hres
        refine ⟨rec, ?_, ht, hp, hcv, hcc⟩
        rw [onInspectResponse_json, hres, hs1]
        rfl
  · intro hnot
    rw [hstep]
    by_cases hpos : 0 < s.inflight
    · rw [if_pos hpos]
      have hfail : rendersToCompletion E (settle s) r ts = false := by
        cases hr : rendersToCompletion E (settle s) r ts
        · rfl
        · exact absurd ⟨hpos, hr⟩ hnot
      cases r with
      | networkError => rfl
      | invalidBody st => rfl
      | json st j => exact (onInspectResponse_failed E (settle s) st j ts hfail).2
    · rw [if_neg hpos]

theorem completedCount_cons_other (E : Host) (s : State) (e : Event) (es : List Event)
    (h : ∀ r ts, e ≠ .inspectResponse r ts) :
    completedCount E s (e :: es) = completedCount E (step E s e) es := by
  cases e <;> first | rfl | exact absurd rfl (h _ _)

theorem run_history (E : Host) (evs : List Event) : ∀ s : State,
    ∃ new : List HistoryRecord, (run E s evs).history = new ++ s.history ∧
      new.length = completedCount E s evs := by
  induction evs with
  | nil => intro s; exact ⟨[], rfl, rfl⟩
  | cons e es ih =>
    intro s
    obtain ⟨new, hnew, hlen⟩ := ih (step E s e)
    by_cases hresp : ∃ r ts, e = .inspectResponse r ts
    · obtain ⟨r, ts, rfl⟩ := hresp
      have hcount : completedCount E s (.inspectResponse r ts :: es)
          = (if 0 < s.inflight ∧ rendersToCompletion E (settle s) r ts = true then 1 else 0)
            + completedCount E (step E s (.inspectResponse r ts)) es := rfl
      by_cases hdone : 0 < s.inflight ∧ rendersToCompletion E (settle s) r ts = true
      · obtain ⟨rec, hrec, _⟩ := (step_history_response E s r ts).1 hdone
        refine ⟨new ++ [rec], ?_, ?_⟩
        · show (run E (step E s (.inspectResponse r ts)) es).history = _
          rw [hnew, hrec]
          simp
        · rw [hcount, if_pos hdone, List.length_append, hlen]
          simp [Nat.add_comm]
      · have hsame := (step_history_response E s r ts).2 hdone
        refine ⟨new, ?_, ?_⟩
        · show (run E (step E s (.inspectResponse r ts)) es).history = _
          rw [hnew, hsame]
        · rw [hcount, if_neg hdone, hlen]
          simp
    · have hother : ∀ r ts, e ≠ .inspectResponse r ts := fun r ts h => hresp ⟨r, ts, h⟩
      refine ⟨new, ?_, ?_⟩
      · show (run E (step E s e) es).history = _
        rw [hnew, step_history_other E s e hother]
      · rw [completedCount_cons_other E s e es hother, hlen]

theorem step_ledger_convertible (E : Host) (s : State) (e : Event)
    (h : ∀ r ∈ s.history, convertible r.verdict = true ∧ convertible r.conf = true) :
    ∀ r ∈ (step E s e).history, convertible r.verdict = true ∧ convertible r.conf = true := by
  by_cases hresp : ∃ r ts, e = .inspectResponse r ts
  · obtain ⟨r, ts, rfl⟩ := hresp
    by_cases hdone : 0 < s.inflight ∧ rendersToCompletion E (settle s) r ts = true
    · obtain ⟨rec, hrec, _, _, hcv, hcc⟩ := (step_history_response E s r ts).1 hdone
      rw [hrec]
      intro x hx
      rcases List.mem_cons.mp hx with hx | hx
      · rw [hx]
        exact ⟨hcv, hcc⟩
      · exact h x hx
    · rw [(step_history_response E s r ts).2 hdone]
      exact h
  · rw [step_history_other E s e (fun r ts he => hresp ⟨r, ts, he⟩)]
    exact h

theorem session_ledger_convertible (E : Host) (evs : List Event) : ∀ s : State,
    (∀ r ∈ s.history, convertible r.verdict = true ∧ convertible r.conf = true) →
    ∀ r ∈ (run E s evs).history, convertible r.verdict = true ∧ convertible r.conf = true := by
  induction evs with
  | nil => intro s h; exact h
  | cons e es ih =>
    intro s h
    exact ih (step E s e) (step_ledger_convertible E s e h)

theorem unconvertible_verdict_session (E : Host) (ts : Str) :
    (run E init [.fileChosen (some { id := 1 }), .imgLoaded 800 600 400 300, .inspectClicked,
      .inspectResponse (.json 200 unconvertibleVerdictResult) ts]).history = [] ∧
    (run E init [.fileChosen (some { id := 1 }), .imgLoaded 800 600 400 300, .inspectClicked,
      .inspectResponse (.json 200 unconvertibleVerdictResult) ts]).resultBox = failedMarkup ∧
    completedCount E init [.fileChosen (some { id := 1 }), .imgLoaded 800 600 400 300,
      .inspectClicked, .inspectResponse (.json 200 unconvertibleVerdictResult) ts] = 0 :=
  ⟨rfl, rfl, rfl⟩

/-- C5: along every session, the history array is the records of the responses that
`renderResult` rendered to its end, newest first, on top of what the ledger held at the
start, so from the empty ledger it holds exactly as many records as responses were
rendered to the end; such a response puts exactly one record at index 0 and leaves the
older records as they were; a response that ends in the "Request failed" branch, and
every other event, leaves the array as it was. -/
theorem history_append_invariant (E : Host) (s : State) (evs : List Event) :
    (∃ new : List HistoryRecord, (run E s evs).history = new ++ s.history ∧
      new.length = completedCount E s evs) ∧
    (s.history = [] → (run E s evs).history.length = completedCount E s evs) ∧
    (∀ (s : State) (r : Response) (ts : Str),
      (0 < s.inflight ∧ rendersToCompletion E (settle s) r ts = true →
        ∃ rec : HistoryRecord,
          (step E s (.inspectResponse r ts)).history = rec :: s.history) ∧
      (¬ (0 < s.inflight ∧ rendersToCompletion E (settle s) r ts = true) →
        (step E s (.inspectResponse r ts)).history = s.history) ∧
      ((step E s (.inspectResponse r ts)).resultBox = failedMarkup →
        (step E s (.inspectResponse r ts)).history = s.history)) ∧
    (∀ (s : State) (e : Event), (∀ r ts, e ≠ .inspectResponse r ts) →
      (step E s e).history = s.history) := by
  refine ⟨run_history E evs s, ?_, ?_, fun s e h => step_history_other E s e h⟩
  · intro hempty
    obtain ⟨new, hnew, hlen⟩ := run_history E evs s
    rw [hnew, hempty, List.append_nil, hlen]
  · intro s r ts
    refine ⟨fun h => ?_, (step_history_response E s r ts).2, fun hbox => ?_⟩
    · obtain ⟨rec, hrec, _⟩ := (step_history_response E s r ts).1 h
      exact ⟨rec, hrec⟩
    · by_cases hdone : 0 < s.inflight ∧ rendersToCompletion E (settle s) r ts = true
      · exfalso
        have hstep : step E s (.inspectResponse r ts)
            = onInspectResponse E (settle s) r ts := by
          show (if 0 < s.inflight then onInspectResponse E (settle s) r ts else s) = _
          rw [if_pos hdone.1]
        rw [hstep] at hbox
        cases r with
        | networkError => simp [rendersToCompletion] at hdone
        | invalidBody st => simp [rendersToCompletion] at hdone
        | json st j =>
          obtain ⟨m, rec, _, hm, hne, _⟩ :=
            onInspectResponse_completed E (settle s) st j ts hdone.2
          rw [hm] at hbox
          exact hne hbox
      · exact (step_history_response E s r ts).2 hdone

/-! ## The submit guard -/

/-- C7, as the code has it: the guard of the submit handler is `currentBlob`.  In every
state in which no file is held (before any file was acquired, or after the clear action,
which resets `currentBlob`), a click on submit issues no request, leaves the result panel,
the history and everything else as they were, and shows the prompt "Choose an image
first."; no response is handled afterwards. -/
theorem no_submit_without_file (s : State) (h : s.currentBlob = none) :
    clickInspect s = { s with alerts := s.alerts ++ ["Choose an image first.".toList] } ∧
    (clickInspect s).requests = s.requests ∧
    (clickInspect s).inflight = s.inflight ∧
    (clickInspect s).resultBox = s.resultBox ∧
    (clickInspect s).history = s.history ∧
    (clickInspect s).historyTable = s.historyTable ∧
    (clickInspect s).alerts = s.alerts ++ ["Choose an image first.".toList] ∧
    (∀ (E : Host) (r : Response) (ts : Str), submit E s r ts = clickInspect s) ∧
    (∀ s0 : State, (clickClear s0).currentBlob = none) ∧
    init.currentBlob = none := by
  have hc : clickInspect s
      = { s with alerts := s.alerts ++ ["Choose an image first.".toList] } := by
    unfold clickInspect
    rw [h]
  refine ⟨hc, ?_, ?_, ?_, ?_, ?_, ?_, ?_, fun _ => rfl, rfl⟩
  · rw [hc]
  · rw [hc]
  · rw [hc]
  · rw [hc]
  · rw [hc]
  · rw [hc]
  · intro E r ts
    unfold submit
    rw [h]

/-- C7 at the state reached by clearing a session that held a decoded image. -/
theorem no_submit_without_file_witness :
    (clickClear loadedSession).currentBlob = none ∧
    (clickInspect (clickClear loadedSession)).requests = [] ∧
    (clickInspect (clickClear loadedSession)).alerts = ["Choose an image first.".toList] :=
  ⟨rfl, (no_submit_without_file (clickClear loadedSession) rfl).2.1,
   (no_submit_without_file (clickClear loadedSession) rfl).2.2.2.2.2.2.1⟩

/-- C7 fails as stated: a file that has been acquired but not decoded (still loading, or
failed to decode) is already held in `currentBlob`, so a click on submit sends the request
and shows no prompt. -/
theorem submit_before_decode_sends :
    (pendingDecodeSession.img.status = .loading ∧
      (clickInspect pendingDecodeSession).requests
        = [formOf pendingDecodeSession { id := 1 }] ∧
      (clickInspect pendingDecodeSession).alerts = [] ∧
      (clickInspect pendingDecodeSession).resultBox = processingMarkup) ∧
    (brokenImageSession.img.status = .broken ∧
      (clickInspect brokenImageSession).requests = [formOf brokenImageSession { id := 1 }] ∧
      (clickInspect brokenImageSession).alerts = []) :=
  ⟨⟨rfl, rfl, rfl, rfl⟩, ⟨rfl, rfl, rfl⟩⟩

/-! ## Part attribution -/

/-- C10, as the code has it: for a submission that is rendered to its end, with no other
event between click and response and a part selector whose value is not empty, the part
stored in the new history record equals the `part_id` field of the request, both being
the value of the part selector. -/
theorem history_part_is_selector_value (E : Host) (s : State) (file : File) (st : Nat)
    (j : JsVal) (ts : Str) (hblob : s.currentBlob = some file)
    (hvalue : s.partSel.value ≠ [])
    (hdone : rendersToCompletion E (settle (clickInspect s)) (.json st j) ts = true) :
    ∃ (rec : HistoryRecord) (fd : FormData),
      (submit E s (.json st j) ts).history = rec :: s.history ∧
      (submit E s (.json st j) ts).requests = s.requests ++ [fd] ∧
      rec.part = fd.part_id ∧ fd.part_id = s.partSel.value := by
  have hclick := clickInspect_some s file hblob
  unfold rendersToCompletion at hdone
  simp only at hdone
  generalize hres : renderResult E (settle (clickInspect s)) j ts = res at hdone
  cases res with
  | error s1 => simp at hdone
  | ok s1 =>
    obtain ⟨m, ov, rec, row, hs1, _, hp, _, _⟩ := renderResult_ok E _ s1 j ts hres
    have hsub : submit E s (.json st j) ts = s1 := by
      unfold submit
      rw [hblob]
      simp only
      rw [onInspectResponse_json, hres]
    have hpart : rec.part = s.partSel.value := by
      rw [hp, hclick]
      rfl
    have hform : (formOf s file).part_id = s.partSel.value := by
      show strOr s.partSel.value "example_part".toList = s.partSel.value
      unfold strOr
      cases hv : s.partSel.value with
      | nil => exact absurd hv hvalue
      | cons c cs => rfl
    refine ⟨rec, formOf s file, ?_, ?_, ?_, hform⟩
    · rw [hsub, hs1, hclick]
      rfl
    · rw [hsub, hs1, hclick]
      rfl
    · rw [hpart, hform]

/-- C10 at a session that holds a decoded image and has the part "bolt" selected. -/
theorem history_part_is_selector_value_witness :
    (∀ E : Host, (loadKB E loadedSession (.json 200 twoPartCatalog)).currentBlob
      = some { id := 1 }) ∧
    (∀ E : Host, (loadKB E loadedSession (.json 200 twoPartCatalog)).partSel.value
      = "bolt".toList) ∧
    (∀ (E : Host) (ts : Str), rendersToCompletion E
      (settle (clickInspect (loadKB E loadedSession (.json 200 twoPartCatalog))))
      (.json 200 genuineResult) ts = true) ∧
    (∀ (E : Host) (ts : Str), ∃ (rec : HistoryRecord) (fd : FormData),
      (submit E (loadKB E loadedSession (.json 200 twoPartCatalog))
        (.json 200 genuineResult) ts).history = [rec] ∧
      rec.part = fd.part_id ∧ fd.part_id = "bolt".toList) := by
  refine ⟨fun _ => rfl, fun _ => rfl, fun _ _ => rfl, ?_⟩
  intro E ts
  obtain ⟨rec, fd, h1, _, h3, h4⟩ := history_part_is_selector_value E
    (loadKB E loadedSession (.json 200 twoPartCatalog)) { id := 1 } 200 genuineResult ts
    rfl (by intro h; cases h) rfl
  exact ⟨rec, fd, h1, h3, h4⟩

/-- C10 fails as stated: with an empty part selector the request carries "example_part"
and the history record the empty string; and a part picked while the request is pending
goes into the record although the request carried the part selected at the click. -/
theorem history_part_differs_from_request :
    (∀ (E : Host) (ts : Str),
      (run E init (emptyCatalogSession ts)).requests.map FormData.part_id
        = ["example_part".toList] ∧
      (run E init (emptyCatalogSession ts)).history.map HistoryRecord.part = [[]]) ∧
    (∀ (E : Host) (ts : Str),
      (run E init (reselectSession ts)).requests.map FormData.part_id = ["bolt".toList] ∧
      (run E init (reselectSession ts)).history.map HistoryRecord.part = ["nut".toList]) :=
  ⟨fun _ _ => ⟨rfl, rfl⟩, fun _ _ => ⟨rfl, rfl⟩⟩

/-! ## Catalog fallback -/

theorem appendAll_options (opts : List SelectOption) : ∀ sel : PartSel,
    (appendAll sel opts).options = sel.options ++ opts := by
  induction opts with
  | nil => intro sel; simp [appendAll]
  | cons o os ih =>
    intro sel
    have h := ih (sel.appendChild o)
    unfold appendAll at h ⊢
    rw [List.foldl_cons, h]
    simp [PartSel.appendChild]

theorem populate_cons (E : Host) (sel : PartSel) (p : JsVal) (rest : List JsVal) :
    populate E sel (p :: rest) =
      match partOption E p with
      | none => .error sel
      | some opt => populate E (sel.appendChild opt) rest := rfl

theorem populate_append (E : Host) (pre : List JsVal) : ∀ (opts : List SelectOption)
    (sel : PartSel) (rest : List JsVal), pre.map (partOption E) = opts.map some →
    populate E sel (pre ++ rest) = populate E (appendAll sel opts) rest := by
  induction pre with
  | nil =>
    intro opts sel rest h
    cases opts with
    | nil => rfl
    | cons o os => simp at h
  | cons p ps ih =>
    intro opts sel rest h
    cases opts with
    | nil => simp at h
    | cons o os =>
      simp only [List.map_cons, List.cons.injEq] at h
      show populate E sel (p :: (ps ++ rest)) = _
      rw [populate_cons, h.1]
      exact ih os (sel.appendChild o) rest h.2

theorem loadKB_caught (E : Host) (s : State) (r : Response) (sel : PartSel)
    (h : loadKBTry E s.partSel r = .error sel) :
    (loadKB E s r).partSel = sel.appendChild fallbackOption := by
  show loadKBSelector E s.partSel r = _
  unfold loadKBSelector
  rw [h]

theorem loadKBTry_json (E : Host) (sel0 : PartSel) (st : Nat) (j p : JsVal)
    (items : List JsVal) (hp : getProp j "parts".toList = some p)
    (hit : iterate (orElse p (.arr [])) = some items) :
    loadKBTry E sel0 (.json st j) =
      match populate E PartSel.cleared items with
      | .error sel => .error sel
      | .ok sel =>
        match orElse p (.arr []) with
        | .arr xs =>
          match findExample 0 xs with
          | some idx => .ok { sel with selectedIndex := some idx }
          | none => .ok sel
        | _ => .error sel := by
  unfold loadKBTry
  simp only [hp, hit]

/-- C6, as the code has it: whenever `loadKB` ends in its `catch` branch, exactly one
option "example_part" has been appended after the options the selector held at the throw,
and these are: the options it held before, when the fetch is rejected, the body is not
JSON, or the body is `null`; none, when `parts` is not iterable; the options built for
the entries before the one that throws, when an entry makes the loop throw; all the
options built, when `parts` is a string.  So the selector holds exactly the one option
"example_part" when it held no option at the throw.  When the `try` block does not throw,
no fallback option is added. -/
theorem loadKB_fallback (E : Host) (s : State) (st : Nat) :
    (∀ (r : Response) (sel : PartSel), loadKBTry E s.partSel r = .error sel →
      (loadKB E s r).partSel.options = sel.options ++ [fallbackOption] ∧
      (sel.options = [] → (loadKB E s r).partSel.options = [fallbackOption])) ∧
    (∀ (r : Response) (sel : PartSel), loadKBTry E s.partSel r = .ok sel →
      (loadKB E s r).partSel = sel) ∧
    ((loadKB E s .networkError).partSel.options = s.partSel.options ++ [fallbackOption] ∧
      (loadKB E s (.invalidBody st)).partSel.options
        = s.partSel.options ++ [fallbackOption] ∧
      ∀ j : JsVal, getProp j "parts".toList = none →
        (loadKB E s (.json st j)).partSel.options
          = s.partSel.options ++ [fallbackOption]) ∧
    (s.partSel.options = [] →
      (loadKB E s .networkError).partSel.options = [fallbackOption] ∧
      (loadKB E s (.invalidBody st)).partSel.options = [fallbackOption] ∧
      (loadKB E s (.json st .null)).partSel.options = [fallbackOption]) ∧
    (∀ (j p : JsVal), getProp j "parts".toList = some p →
      iterate (orElse p (.arr [])) = none →
      (loadKB E s (.json st j)).partSel.options = [fallbackOption]) ∧
    (∀ (j p bad : JsVal) (pre post : List JsVal) (opts : List SelectOption),
      getProp j "parts".toList = some p →
      iterate (orElse p (.arr [])) = some (pre ++ bad :: post) →
      pre.map (partOption E) = opts.map some → partOption E bad = none →
      (loadKB E s (.json st j)).partSel.options = opts ++ [fallbackOption]) ∧
    (∀ (j : JsVal) (c : Char) (cs : Str), getProp j "parts".toList = some (.str (c :: cs)) →
      (loadKB E s (.json st j)).partSel.options
        = (c :: cs).map (fun _ => undefinedOption) ++ [fallbackOption]) := by
  have hcaught : ∀ (r : Response) (sel : PartSel), loadKBTry E s.partSel r = .error sel →
      (loadKB E s r).partSel.options = sel.options ++ [fallbackOption] := by
    intro r sel h
    rw [loadKB_caught E s r sel h]
    rfl
  refine ⟨?_, ?_, ⟨hcaught _ _ rfl, hcaught _ _ rfl, ?_⟩, ?_, ?_, ?_, ?_⟩
  · intro r sel h
    refine ⟨hcaught r sel h, fun hempty => ?_⟩
    rw [hcaught r sel h, hempty]
    rfl
  · intro r sel h
    show loadKBSelector E s.partSel r = _
    unfold loadKBSelector
    rw [h]
  · intro j hj
    apply hcaught
    unfold loadKBTry
    simp only [hj]
  · intro hempty
    have h1 := hcaught .networkError s.partSel rfl
    have h2 := hcaught (.invalidBody st) s.partSel rfl
    have h3 := hcaught (.json st .null) s.partSel rfl
    rw [hempty] at h1 h2 h3
    exact ⟨h1, h2, h3⟩
  · intro j p hp hit
    have h : loadKBTry E s.partSel (.json st j) = .error PartSel.cleared := by
      unfold loadKBTry
      simp only [hp, hit]
    rw [hcaught _ _ h]
    rfl
  · intro j p bad pre post opts hp hit hpre hbad
    have hpop : populate E PartSel.cleared (pre ++ bad :: post)
        = .error (appendAll PartSel.cleared opts) := by
      rw [populate_append E pre opts PartSel.cleared (bad :: post) hpre, populate_cons,
        hbad]
    have h : loadKBTry E s.partSel (.json st j) = .error (appendAll PartSel.cleared opts) := by
      rw [loadKBTry_json E s.partSel st j p _ hp hit, hpop]
    rw [hcaught _ _ h, appendAll_options]
    rfl
  · intro j c cs hp
    have hor : orElse (.str (c :: cs)) (.arr []) = .str (c :: cs) := rfl
    have hit : iterate (orElse (.str (c :: cs)) (.arr []))
        = some ((c :: cs).map fun d => JsVal.str [d]) := rfl
    have hmap : ((c :: cs).map fun d => JsVal.str [d]).map (partOption E)
        = ((c :: cs).map fun _ => undefinedOption).map some := by
      rw [List.map_map, List.map_map]
      apply List.map_congr_left
      intro d _
      rfl
    have hpop : populate E PartSel.cleared ((c :: cs).map fun d => JsVal.str [d])
        = .ok (appendAll PartSel.cleared ((c :: cs).map fun _ => undefinedOption)) := by
      have h0 := populate_append E _ _ PartSel.cleared [] hmap
      rw [List.append_nil] at h0
      rw [h0]
      rfl
    have h : loadKBTry E s.partSel (.json st j)
        = .error (appendAll PartSel.cleared ((c :: cs).map fun _ => undefinedOption)) := by
      rw [loadKBTry_json E s.partSel st j _ _ hp hit, hpop, hor]
    rw [hcaught _ _ h, appendAll_options]
    rfl

theorem loadKB_unconvertible_entry (E : Host) :
    (loadKB E init (.json 200 unconvertibleCatalog)).partSel.options
      = [{ value := "bolt".toList, textContent := "bolt".toList }, fallbackOption] := rfl

/-- C6 fails as stated: an empty parts list, and a body with no parts list, leave the
selector with no option at all; a catalog whose second entry is `null` leaves the option
built for the first entry in front of "example_part"; and on a page whose selector held an
option before, a rejected fetch leaves that option in front of "example_part". -/
theorem loadKB_fallback_is_not_exact :
    (∀ E : Host, (loadKB E init (.json 200 emptyCatalog)).partSel.options = []) ∧
    (∀ E : Host, (loadKB E init (.json 200 (.obj []))).partSel.options = []) ∧
    (∀ E : Host, (loadKB E init (.json 200 brokenCatalog)).partSel.options
      = [{ value := "bolt".toList, textContent := "bolt".toList }, fallbackOption]) ∧
    (∀ E : Host, (loadKB E prefilledPage .networkError).partSel.options
      = [{ value := "m8".toList, textContent := "m8".toList }, fallbackOption]) :=
  ⟨fun _ => rfl, fun _ => rfl, fun _ => rfl, fun _ => rfl⟩

/-! ## Escaping of the extracted text -/

/-- C8 at a result whose extracted text is `<b>`: the text goes into the markup of the
result panel as it is, with its `<` and `>`, while `escapeHtml` would have made it
`&lt;b&gt;`. -/
theorem extracted_text_is_not_escaped (E : Host) :
    (∃ verdict final ocr : Str,
      verdictBadge E (.str "Genuine".toList) = some verdict ∧
      confBadge E "Final".toList (.num 0) = some final ∧
      confBadge E "OCR".toList (.num 0) = some ocr ∧
      resultMarkup E markupResult = some (resultTemplate E markupResult verdict final ocr
        "<b>".toList "<span class=\"badge ok\">No rule failures</span>".toList [])) ∧
    extractedCell E (.str "<b>".toList) = some "<b>".toList ∧
    Char.ofNat 60 ∈ "<b>".toList ∧
    escapeHtml "<b>".toList = "&lt;b&gt;".toList ∧
    extractedCell E (.str "<b>".toList) ≠ some (escapeHtml "<b>".toList) :=
  ⟨⟨_, _, _, rfl, rfl, rfl, rfl⟩, rfl, by decide, rfl,
   by show some "<b>".toList ≠ some "&lt;b&gt;".toList; decide⟩

end Inspect
